import Mathlib

/-!
Verification development for the ChRIS plugin-instance app manager
(`plugininstances/services/manager.py`).

The Python module drives one computational job through its lifecycle:
build the command-line arguments from typed parameters, resolve the input
directory, pack input data into a zip archive, submit to the remote pfcon
service, poll for completion, and finalize (download the result archive,
register output files and write the terminal status).

The embedding below translates each method of `PluginInstanceManager` into
a pure Lean function.  Stateful database effects are modelled by explicit
state passing over a `World` record (the plugin-instance row, the
finalization-lock table and the output-file table); network and object
storage responses are supplied as explicit arguments, and observable
actions are recorded in an event trace.
-/

namespace ChRISManager

/-! ## Python string helpers -/

/-- Python `s.lstrip(c)`: drop every leading occurrence of the character. -/
def pyLStrip (s : String) (c : Char) : String :=
  String.mk (s.data.dropWhile (fun x => x = c))

/-- Python `s.strip(c)`: drop every leading and trailing occurrence of the
character (the source uses `path_list[0].strip('/')`, which strips both
ends). -/
def pyStrip (s : String) (c : Char) : String :=
  String.mk (((s.data.dropWhile (fun x => x = c)).reverse.dropWhile
    (fun x => x = c)).reverse)

/-- Python `s[-n:]` for `n ≤ len(s)`: the final `n` characters. -/
def pyLastChars (s : String) (n : Nat) : String :=
  String.mk (s.data.drop (s.data.length - n))

/-- Auxiliary for Python `s.replace(old, new='', count=1)` on character
lists: remove the first occurrence of `pat` (non-empty) from the list. -/
def replaceOnceAux (pat : List Char) : List Char → List Char
  | [] => []
  | c :: rest =>
    if pat ≠ [] ∧ pat.isPrefixOf (c :: rest) then (c :: rest).drop pat.length
    else c :: replaceOnceAux pat rest

/-- Python `s.replace(pat, '', 1)`: delete the first occurrence of `pat`. -/
def replaceOnce (pat : String) (s : String) : String :=
  String.mk (replaceOnceAux pat.data s.data)

/-- Auxiliary for Python `s.split(c)` on character lists: split on every
occurrence of the separator character; always returns at least one
(possibly empty) group. -/
def pySplitCharAux (c : Char) : List Char → List (List Char)
  | [] => [[]]
  | x :: rest =>
    let r := pySplitCharAux c rest
    if x = c then [] :: r
    else
      match r with
      | [] => [[x]]
      | g :: gs => (x :: g) :: gs

/-- Python `s.split(c)` for a one-character separator: `''.split(',')` is
`['']`, and separators at the ends produce empty groups. -/
def pySplit (s : String) (c : Char) : List String :=
  (pySplitCharAux c s.data).map String.mk

/-- Python `os.path.join(a, b)` for the cases the source exercises. -/
def pathJoin (a b : String) : String :=
  if b.startsWith "/" then b
  else if a = "" then b
  else if a.endsWith "/" then a ++ b
  else a ++ "/" ++ b

/-! ## Parameter model (Django plugin parameter instances) -/

/-- A Python value as the manager sees parameter values: strings for
`store` parameters (including path-like ones) and booleans for the
boolean-flag actions. -/
inductive PyVal
  | str (s : String)
  | pybool (b : Bool)
  deriving DecidableEq, Repr

/-- Python truthiness of a parameter value (`if value:`). -/
def truthy : PyVal → Bool
  | PyVal.str s => s ≠ ""
  | PyVal.pybool b => b

/-- Python `str()` as applied to parameter values; exact on strings, which
is the only case the source's `.split(',')` call can reach without an
`AttributeError`. -/
def asStr : PyVal → String
  | PyVal.str s => s
  | PyVal.pybool b => if b then "True" else "False"

/-- The static plugin parameter: its command-line flag, its type
(`'string'`, `'path'`, `'unextpath'`, ...) and its argparse action
(`'store'`, `'store_true'`, `'store_false'`). -/
structure PluginParam where
  flag : String
  type : String
  action : String
  deriving DecidableEq, Repr

/-- A parameter instance: the static parameter plus the submitted value. -/
structure ParamInst where
  param : PluginParam
  value : PyVal
  deriving DecidableEq, Repr

/-- A Python `dict` with insertion order: an association list where
inserting an existing key updates the value in place and a new key is
appended at the end. -/
abbrev Dict : Type := List (String × PyVal)

/-- Python `d[k] = v` on an insertion-ordered dict. -/
def dictInsert (d : Dict) (k : String) (v : PyVal) : Dict :=
  if d.any (fun p => p.1 = k) then
    d.map (fun p => if p.1 = k then (k, v) else p)
  else d ++ [(k, v)]

/-! ## `get_plugin_instance_app_cmd_args` -/

/-- One iteration of the parameter loop in
`get_plugin_instance_app_cmd_args`: the three sequential `if` tests of the
source on (`app_args`, `unextpath_parameters_dict`,
`path_parameters_dict`). -/
def cmd_args_step (acc : List PyVal × Dict × Dict) (pi : ParamInst) :
    List PyVal × Dict × Dict :=
  let acc1 :=
    if pi.param.action = "store" then
      let unext :=
        if pi.param.type = "unextpath" then
          dictInsert acc.2.1 pi.param.flag pi.value
        else acc.2.1
      let path :=
        if pi.param.type = "path" then
          dictInsert acc.2.2 pi.param.flag pi.value
        else acc.2.2
      (acc.1 ++ [PyVal.str pi.param.flag, pi.value], unext, path)
    else acc
  let acc2 :=
    if pi.param.action = "store_true" ∧ truthy pi.value then
      (acc1.1 ++ [PyVal.str pi.param.flag], acc1.2.1, acc1.2.2)
    else acc1
  if pi.param.action = "store_false" ∧ ¬ truthy pi.value then
    (acc2.1 ++ [PyVal.str pi.param.flag], acc2.2.1, acc2.2.2)
  else acc2

/-- `get_plugin_instance_app_cmd_args`: returns the app argument list and
the `unextpath`/`path` parameter dictionaries.  The two metadata flags are
appended before the parameter loop runs. -/
def get_plugin_instance_app_cmd_args (params : List ParamInst) :
    List PyVal × Dict × Dict :=
  params.foldl cmd_args_step
    ([PyVal.str "--saveinputmeta", PyVal.str "--saveoutputmeta"],
      ([] : List (String × PyVal)), ([] : List (String × PyVal)))

/-- The argv contribution of a single parameter, as the specification
describes it: `flag value` for action `store`, only `flag` for
`store_true` with a truthy value, only `flag` for `store_false` with a
falsy value, nothing otherwise. -/
def emitArgs (pi : ParamInst) : List PyVal :=
  (if pi.param.action = "store" then [PyVal.str pi.param.flag, pi.value]
   else []) ++
  (if pi.param.action = "store_true" ∧ truthy pi.value then
    [PyVal.str pi.param.flag] else []) ++
  (if pi.param.action = "store_false" ∧ ¬ truthy pi.value then
    [PyVal.str pi.param.flag] else [])

/-! ## Job identifier -/

/-- The job identifier computed in `PluginInstanceManager.__init__`:
`'chris-jid-' + str(plugin_instance.id)`. -/
def str_job_id (instId : Nat) : String := "chris-jid-" ++ toString instId

/-- The job-identifier derivation rule exactly as the specification words
it: the string `job-` followed by the decimal instance id. -/
def job_id_spec_rule (instId : Nat) : String := "job-" ++ toString instId

/-! ## Remote response model

The pfcon status response is `{'compute': {'status': ..., 'd_ret':
{'l_status': [...], 'l_logs': [...]}}}`.  The two list entries under
`d_ret` are modelled as `Option` so that a response missing the key can be
represented; a Python `d[k]` access on a missing key raises `KeyError`,
modelled as an `Except.error`. -/

/-- The `d_ret` dictionary of a pfcon compute response. -/
structure DRet where
  l_status : Option (List String)
  l_logs : Option (List String)
  deriving DecidableEq, Repr

/-- The `compute` dictionary of a pfcon response. -/
structure DCompute where
  status : Bool
  d_ret : DRet
  deriving DecidableEq, Repr

/-- A decoded pfcon JSON response body. -/
structure DResponse where
  compute : DCompute
  deriving DecidableEq, Repr

/-- Outcome of a `requests` call: a transport error (`Timeout` or
`RequestException`) or a response with an HTTP status code and a body. -/
inductive HttpResult (α : Type)
  | transportError
  | resp (code : Nat) (body : α)
  deriving DecidableEq, Repr

/-! ## `get_job_status_summary` -/

/-- The fixed-shape job status summary persisted (as JSON) in the
instance's `summary` field, modelled structurally. -/
structure StatusSummary where
  pushPath_status : Bool
  pullPath_status : Bool
  submit_status : Bool
  return_status : Bool
  return_l_status : List String
  return_l_logs : List String
  deriving DecidableEq, Repr

/-- The log post-processing inside the `try` block of
`get_job_status_summary`: take `l_logs[0]` (an `IndexError` on an empty
list is caught, leaving the list unchanged) and, if longer than 3000
characters, replace it by its final 3000 characters. -/
def truncateLogsPy (ls : List String) : List String :=
  match ls with
  | [] => []
  | l0 :: rest =>
    if 3000 < l0.length then pyLastChars l0 3000 :: rest else l0 :: rest

/-- `get_job_status_summary`: build the default summary, then, when a
response is given, copy `status`, `l_status` and `l_logs` from its
`compute.d_ret` block (a missing key raises `KeyError`, uncaught) and
truncate the first log entry inside the guarded `try`. -/
def get_job_status_summary (d_response : Option DResponse) :
    Except String StatusSummary :=
  let base : StatusSummary :=
    { pushPath_status := true, pullPath_status := false,
      submit_status := true, return_status := false,
      return_l_status := [], return_l_logs := [] }
  match d_response with
  | none => Except.ok base
  | some resp =>
    match resp.compute.d_ret.l_status with
    | none => Except.error "KeyError: l_status"
    | some lstat =>
      match resp.compute.d_ret.l_logs with
      | none => Except.error "KeyError: l_logs"
      | some llogs =>
        Except.ok { base with
          return_status := resp.compute.status,
          return_l_status := lstat,
          return_l_logs := truncateLogsPy llogs }

/-! ## Input resolution (`run_plugin_instance_app`, lines 123-132) -/

/-- The return value of `manage_fsplugin_instance_app_empty_inputdir`: the
sentinel input directory `~/data/squashEmptyDir` with leading slashes
stripped.  The method also lazily uploads a small text object at that
location; object-storage failures there are logged and the path is
returned regardless, so the returned location does not depend on
storage. -/
def manage_fsplugin_instance_app_empty_inputdir (home : String) : String :=
  pyLStrip (pathJoin (pathJoin home "data") "squashEmptyDir") '/'

/-- The input-directory resolution fragment at the top of
`run_plugin_instance_app`: a `previous` instance's output path wins;
otherwise the first value of the `path` parameter dict is split on commas
and its first component is stripped of slashes on both ends
(`path_list[0].strip('/')`); otherwise the empty-input sentinel is
used. -/
def run_plugin_instance_app_inputdir (previous_output : Option String)
    (params : List ParamInst) (home : String) : String :=
  let d_path_params := (get_plugin_instance_app_cmd_args params).2.2
  match previous_output with
  | some out => out
  | none =>
    match d_path_params with
    | [] => manage_fsplugin_instance_app_empty_inputdir home
    | (_, v) :: _ => pyStrip ((pySplit (asStr v) ',').headI) '/'

/-- The input-resolution rule exactly as the specification words it: the
same precedence, but with only the leading slash of the first
comma-separated value stripped. -/
def inputdir_spec_rule (previous_output : Option String)
    (params : List ParamInst) (home : String) : String :=
  let d_path_params := (get_plugin_instance_app_cmd_args params).2.2
  match previous_output with
  | some out => out
  | none =>
    match d_path_params with
    | [] => manage_fsplugin_instance_app_empty_inputdir home
    | (_, v) :: _ => pyLStrip ((pySplit (asStr v) ',').headI) '/'

/-! ## Archive codec -/

/-- Result of an object-storage (Swift) call: success or a
`ClientException`. -/
inductive SwiftRes (α : Type)
  | ok (a : α)
  | clientErr
  deriving DecidableEq, Repr

/-- The object-storage environment seen by `create_zip_file`: the outcome
of `ls` for each prefix and of `download_obj` for each object path. -/
structure SwiftEnv where
  lsRes : String → SwiftRes (List String)
  downloadRes : String → SwiftRes (List Nat)

/-- The zip entry name computed in `create_zip_file`:
`obj_path.replace(swift_path, '', 1).lstrip('/')`. -/
def zipEntryName (swift_path obj_path : String) : String :=
  pyLStrip (replaceOnce swift_path obj_path) '/'

/-- The inner object loop of `create_zip_file`.  The state carries the
accumulated zip entries together with the current binding of the Python
local variable `contents` (`none` while still unbound).  A failed
download leaves `contents` at its previous binding; the subsequent
`writestr` call sits outside the `try`, so it either raises `NameError`
(first iteration, `contents` unbound) or writes the previous object's
bytes under the new entry name. -/
def create_zip_inner (env : SwiftEnv) (swift_path : String)
    (st : List (String × List Nat) × Option (List Nat)) :
    List String → Except String (List (String × List Nat) × Option (List Nat))
  | [] => Except.ok st
  | obj_path :: rest =>
    let contents : Option (List Nat) :=
      match env.downloadRes obj_path with
      | SwiftRes.ok c => some c
      | SwiftRes.clientErr => st.2
    match contents with
    | none => Except.error "NameError: contents"
    | some c =>
      create_zip_inner env swift_path
        (st.1 ++ [(zipEntryName swift_path obj_path, c)], some c) rest

/-- The outer prefix loop of `create_zip_file`: a failed `ls` leaves
`l_ls = []`, skipping the prefix. -/
def create_zip_outer (env : SwiftEnv)
    (st : List (String × List Nat) × Option (List Nat)) :
    List String → Except String (List (String × List Nat) × Option (List Nat))
  | [] => Except.ok st
  | swift_path :: rest =>
    let l_ls : List String :=
      match env.lsRes swift_path with
      | SwiftRes.ok l => l
      | SwiftRes.clientErr => []
    match create_zip_inner env swift_path st l_ls with
    | Except.error e => Except.error e
    | Except.ok st2 => create_zip_outer env st2 rest

/-- `create_zip_file`: pack the objects under the given storage prefixes
into a zip archive, modelled as the ordered list of `(entry name, bytes)`
pairs.  An uncaught Python exception is an `Except.error`. -/
def create_zip_file (env : SwiftEnv) (swift_paths : List String) :
    Except String (List (String × List Nat)) :=
  match create_zip_outer env ([], none) swift_paths with
  | Except.error e => Except.error e
  | Except.ok st => Except.ok st.1

/-- A result archive received from pfcon: either malformed (raises
`BadZipFile` on open/read) or a list of named entries. -/
inductive ZipData
  | badZip
  | entries (l : List (String × List Nat))
  deriving DecidableEq, Repr

/-- `unpack_zip_file`: compute, for each entry of the received archive,
the storage path `output_path + fname.lstrip('/')` (the caller passes
`get_output_path() + '/'` as `output_path`) and return the list of
resulting storage paths; a malformed archive raises.  The upload of each
entry's bytes to object storage is a storage effect that the verified
claims do not observe and is not tracked here. -/
def unpack_zip_file (output_path : String) (z : ZipData) :
    Except String (List String) :=
  match z with
  | ZipData.badZip => Except.error "BadZipFile"
  | ZipData.entries l =>
    Except.ok (l.map (fun e => output_path ++ pyLStrip e.1 '/'))

/-! ## Job state, database tables and event traces

The relational store is modelled explicitly: `inst` is the
`PluginInstance` row the manager owns, `lockTable` is the set of instance
ids holding a `PluginInstanceLock` row (unique per instance), and
`fileTable` is the `PluginInstanceFile` table with its uniqueness
constraint on `(instance, fname)`.  Observable actions (remote HTTP calls
and `save()` persistence) are recorded in an `Ev` trace. -/

/-- The persisted fields of a `PluginInstance` row that the manager reads
and writes. -/
structure InstState where
  id : Nat
  status : String
  summary : StatusSummary
  rawResp : Option DResponse
  end_date : Option Nat
  output_path : String
  deriving DecidableEq, Repr

/-- The relational state visible to one job's manager. -/
structure World where
  inst : InstState
  lockTable : List Nat
  fileTable : List (Nat × String)
  deriving DecidableEq, Repr

/-- Observable events of one manager invocation. -/
inductive Ev
  | remoteStatusGet
  | fetchArchive
  | persistStatus (s : String)
  | unpackArchive
  | registerFile (f : String)
  deriving DecidableEq, Repr

/-- `save_plugin_instance_final_status`: set `end_date` to the current
time and persist the row (recording the status being persisted). -/
def save_plugin_instance_final_status (now : Nat) (w : World) :
    World × List Ev :=
  ({ w with inst := { w.inst with end_date := some now } },
    [Ev.persistStatus w.inst.status])

/-- `_register_output_files`: insert one `PluginInstanceFile` row per
storage path; an `IntegrityError` on a duplicate `(instance, fname)` pair
is caught and logged, and the loop continues. -/
def register_output_files (jid : Nat) (table : List (Nat × String)) :
    List String → List (Nat × String) × List Ev
  | [] => (table, [])
  | f :: rest =>
    let table2 := if (jid, f) ∈ table then table else table ++ [(jid, f)]
    let r := register_output_files jid table2 rest
    (r.1, Ev.registerFile f :: r.2)

/-- `_handle_finished_successfully_status`: try to insert the
finalization-lock row; on `IntegrityError` another concurrent task owns
finalization, so return with no effect.  Otherwise fetch the result
archive; on transport failure or a non-200 response give up with status
`cancelled`; on 200 mark the pull phase done, persist `registeringFiles`,
unpack the archive (a bad zip gives up with `cancelled`), register the
resulting files and finish with `finishedSuccessfully`.  Every exit of
the owning branch persists status and end date via
`save_plugin_instance_final_status`. -/
def handle_finished_successfully (fetchResp : HttpResult ZipData)
    (now : Nat) (w : World) : World × List Ev :=
  if w.inst.id ∈ w.lockTable then (w, [])
  else
    let w1 : World := { w with lockTable := w.lockTable ++ [w.inst.id] }
    match fetchResp with
    | HttpResult.transportError =>
      let w2 : World := { w1 with inst := { w1.inst with status := "cancelled" } }
      let r := save_plugin_instance_final_status now w2
      (r.1, Ev.fetchArchive :: r.2)
    | HttpResult.resp code z =>
      if code = 200 then
        let sum := { w1.inst.summary with pullPath_status := true }
        let w2 : World :=
          { w1 with inst :=
            { w1.inst with summary := sum, status := "registeringFiles" } }
        let evs1 : List Ev := [Ev.fetchArchive, Ev.persistStatus "registeringFiles"]
        match unpack_zip_file (w2.inst.output_path ++ "/") z with
        | Except.error _ =>
          let w3 : World := { w2 with inst := { w2.inst with status := "cancelled" } }
          let r := save_plugin_instance_final_status now w3
          (r.1, evs1 ++ [Ev.unpackArchive] ++ r.2)
        | Except.ok fnames =>
          let rr := register_output_files w2.inst.id w2.fileTable fnames
          let inst3 : InstState := { w2.inst with status := "finishedSuccessfully" }
          let w3 : World := { w2 with fileTable := rr.1, inst := inst3 }
          let r := save_plugin_instance_final_status now w3
          (r.1, evs1 ++ [Ev.unpackArchive] ++ rr.2 ++ r.2)
      else
        let w2 : World := { w1 with inst := { w1.inst with status := "cancelled" } }
        let r := save_plugin_instance_final_status now w2
        (r.1, Ev.fetchArchive :: r.2)

/-- `_handle_finished_with_error_status`: set `finishedWithError` and
persist status and end date. -/
def handle_finished_with_error (now : Nat) (w : World) : World × List Ev :=
  save_plugin_instance_final_status now
    { w with inst := { w.inst with status := "finishedWithError" } }

/-- The remote responses available to one poll invocation: the status GET
and, if the finalize branch runs, the archive GET. -/
structure PollEnv where
  statusResp : HttpResult DResponse
  fetchResp : HttpResult ZipData

/-- `check_plugin_instance_app_exec_status`: when the persisted status is
`started`, GET the remote status; a transport error or non-200 response
leaves everything unchanged and returns the current status.  On 200,
rebuild the summary, apply the conditional (`status='started'`-guarded)
update of `summary` and `raw`, and dispatch on the remote per-step status
list.  When the status is not `started`, nothing happens at all.  An
uncaught Python exception (`KeyError` on a malformed response) is an
`Except.error`.  Returns the final world, the returned status string and
the event trace. -/
def check_plugin_instance_app_exec_status (env : PollEnv) (now : Nat)
    (w : World) : Except String (World × String × List Ev) :=
  if w.inst.status = "started" then
    match env.statusResp with
    | HttpResult.transportError =>
      Except.ok (w, w.inst.status, [Ev.remoteStatusGet])
    | HttpResult.resp code d =>
      if code ≠ 200 then Except.ok (w, w.inst.status, [Ev.remoteStatusGet])
      else
        match d.compute.d_ret.l_status with
        | none => Except.error "KeyError: l_status"
        | some l_status =>
          match get_job_status_summary (some d) with
          | Except.error e => Except.error e
          | Except.ok summary =>
            let w1 : World :=
              if w.inst.status = "started" then
                { w with inst :=
                  { w.inst with summary := summary, rawResp := some d } }
              else w
            if "finishedSuccessfully" ∈ l_status then
              let r := handle_finished_successfully env.fetchResp now w1
              Except.ok (r.1, r.1.inst.status, Ev.remoteStatusGet :: r.2)
            else if "finishedWithError" ∈ l_status then
              let r := handle_finished_with_error now w1
              Except.ok (r.1, r.1.inst.status, Ev.remoteStatusGet :: r.2)
            else
              Except.ok (w1, w1.inst.status, [Ev.remoteStatusGet])
  else
    Except.ok (w, w.inst.status, [])

/-- Sequential composition of several finalize-success attempts for the
same job.  Each attempt's only interaction with shared state before it
either owns finalization or gives up is the atomic unique-row insert of
the lock, so arbitrary concurrent interleavings of N attempts are
equivalent to some serialization at that granularity; losers are pure
no-ops. -/
def runFinalizeAttempts (now : Nat) :
    List (HttpResult ZipData) → World → World × List (List Ev)
  | [], w => (w, [])
  | e :: rest, w =>
    let r := handle_finished_successfully e now w
    let rr := runFinalizeAttempts now rest r.1
    (rr.1, r.2 :: rr.2)

/-- Decidable check that some `persistStatus "registeringFiles"` event
occurs strictly before the first `fetchArchive` event of a trace. -/
def registeringPersistedBeforeFetch (evs : List Ev) : Bool :=
  (evs.takeWhile (fun e => decide (e ≠ Ev.fetchArchive))).any
    (fun e => decide (e = Ev.persistStatus "registeringFiles"))

/-- Concatenated per-parameter argv contributions, in declaration order. -/
def emittedArgs : List ParamInst → List PyVal
  | [] => []
  | p :: rest => emitArgs p ++ emittedArgs rest

/-! ## Theorems -/

lemma cmd_args_step_fst (acc : List PyVal × Dict × Dict) (pi : ParamInst) :
    (cmd_args_step acc pi).1 = acc.1 ++ emitArgs pi := by
  simp only [cmd_args_step, emitArgs]
  split_ifs <;> simp [List.append_assoc]

lemma foldl_cmd_args_fst (params : List ParamInst) :
    ∀ acc : List PyVal × Dict × Dict,
      (params.foldl cmd_args_step acc).1 = acc.1 ++ emittedArgs params := by
  induction params with
  | nil => intro acc; simp [emittedArgs]
  | cons p rest ih =>
    intro acc
    simp only [List.foldl_cons, emittedArgs]
    rw [ih, cmd_args_step_fst, List.append_assoc]

/-- C6: the Job Argument Builder emits the two fixed metadata flags as the
first two elements of argv, and the remaining arguments are the
declaration-order concatenation of the per-parameter contributions:
`flag value` for action `store`, only `flag` for `store_true` with a
truthy value, only `flag` for `store_false` with a falsy value. -/
theorem c6_arg_builder_fixed_flags_and_order (params : List ParamInst) :
    (get_plugin_instance_app_cmd_args params).1 =
      [PyVal.str "--saveinputmeta", PyVal.str "--saveoutputmeta"] ++
        emittedArgs params := by
  simpa [get_plugin_instance_app_cmd_args] using
    foldl_cmd_args_fst params
      ([PyVal.str "--saveinputmeta", PyVal.str "--saveoutputmeta"],
        ([] : Dict), ([] : Dict))

/-- C9 counterexample: the job identifier actually sent is
`chris-jid-<id>`, not the `job-<id>` the specification documents; at
instance id 1 the two rules disagree. -/
theorem c9_job_id_rule_cex :
    str_job_id 1 = "chris-jid-1" ∧ job_id_spec_rule 1 = "job-1" ∧
      str_job_id 1 ≠ job_id_spec_rule 1 :=
  ⟨rfl, rfl, by decide⟩

lemma chris_jid_length_append (s : String) :
    ("chris-jid-" ++ s).length = 10 + s.length := by
  cases s with
  | mk data => simp [String.length, String.append]; omega

/-- C9 amended: the job identifier sent to the remote compute service is
derived deterministically from the instance's numeric id by the rule
`chris-jid-` followed by the decimal id; the fixed prefix keeps the
identifier at least 10 characters long, satisfying remote schedulers'
minimum-length constraints. -/
theorem c9_job_id_amended (n : Nat) :
    str_job_id n = "chris-jid-" ++ toString n ∧
      10 ≤ (str_job_id n).length :=
  ⟨rfl, by rw [str_job_id, chris_jid_length_append]; omega⟩

/-- The evolution of `path_parameters_dict` over one parameter: only a
`store`-action parameter of type `path` inserts its flag and value. -/
def path_dict_step (d : Dict) (pi : ParamInst) : Dict :=
  if pi.param.action = "store" ∧ pi.param.type = "path" then
    dictInsert d pi.param.flag pi.value
  else d

lemma cmd_args_step_path (acc : List PyVal × Dict × Dict) (pi : ParamInst) :
    (cmd_args_step acc pi).2.2 = path_dict_step acc.2.2 pi := by
  simp only [cmd_args_step, path_dict_step]
  split_ifs with h1 h2 h3 <;> simp_all

lemma foldl_cmd_args_path (params : List ParamInst) :
    ∀ acc : List PyVal × Dict × Dict,
      (params.foldl cmd_args_step acc).2.2 =
        params.foldl path_dict_step acc.2.2 := by
  induction params with
  | nil => intro acc; rfl
  | cons p rest ih =>
    intro acc
    simp only [List.foldl_cons]
    rw [ih, cmd_args_step_path]

lemma path_dict_step_skip (d : Dict) (pi : ParamInst)
    (h : ¬(pi.param.action = "store" ∧ pi.param.type = "path")) :
    path_dict_step d pi = d := by
  simp [path_dict_step, h]

lemma foldl_path_dict_skip (pre : List ParamInst) :
    ∀ d : Dict, (∀ q ∈ pre, ¬(q.param.action = "store" ∧ q.param.type = "path")) →
      pre.foldl path_dict_step d = d := by
  induction pre with
  | nil => intro d _; rfl
  | cons p rest ih =>
    intro d h
    simp only [List.foldl_cons]
    rw [path_dict_step_skip d p (h p (List.mem_cons_self p rest)),
      ih d (fun q hq => h q (List.mem_cons_of_mem p hq))]

lemma dictInsert_head_stable (f : String) (v : PyVal) (d : Dict) (k : String)
    (v' : PyVal) (hk : k ≠ f) :
    ∃ d', dictInsert ((f, v) :: d) k v' = (f, v) :: d' := by
  unfold dictInsert
  split_ifs with h
  · refine ⟨d.map (fun p => if p.1 = k then (k, v') else p), ?_⟩
    have hne : ¬((f, v).1 = k) := fun hf => hk hf.symm
    simp only [List.map_cons, if_neg hne]
  · exact ⟨d ++ [(k, v')], by simp⟩

lemma foldl_path_dict_head (post : List ParamInst) (f : String) (v : PyVal) :
    ∀ d : Dict,
      (∀ q ∈ post, q.param.action = "store" → q.param.type = "path" →
        q.param.flag ≠ f) →
      ∃ d', post.foldl path_dict_step ((f, v) :: d) = (f, v) :: d' := by
  induction post with
  | nil => intro d _; exact ⟨d, rfl⟩
  | cons q rest ih =>
    intro d h
    simp only [List.foldl_cons]
    by_cases hq : q.param.action = "store" ∧ q.param.type = "path"
    · have hflag : q.param.flag ≠ f :=
        h q (List.mem_cons_self q rest) hq.1 hq.2
      obtain ⟨d2, hd2⟩ := dictInsert_head_stable f v d q.param.flag q.value hflag
      rw [path_dict_step, if_pos hq, hd2]
      exact ih d2 (fun r hr => h r (List.mem_cons_of_mem q hr))
    · rw [path_dict_step_skip _ _ hq]
      exact ih d (fun r hr => h r (List.mem_cons_of_mem q hr))

/-- C3 counterexample: with no `previous` job and a single path parameter
whose first comma-separated value is `a/`, the code resolves the input to
`a` (Python `strip('/')` removes the trailing slash as well), while the
specification's leading-slash-only rule yields `a/`. -/
theorem c3_input_resolution_cex :
    run_plugin_instance_app_inputdir none
      [⟨⟨"-d", "path", "store"⟩, PyVal.str "a/"⟩] "/home/u" = "a" ∧
    inputdir_spec_rule none
      [⟨⟨"-d", "path", "store"⟩, PyVal.str "a/"⟩] "/home/u" = "a/" ∧
    run_plugin_instance_app_inputdir none
      [⟨⟨"-d", "path", "store"⟩, PyVal.str "a/"⟩] "/home/u" ≠
      inputdir_spec_rule none
        [⟨⟨"-d", "path", "store"⟩, PyVal.str "a/"⟩] "/home/u" :=
  ⟨rfl, rfl, by decide⟩

/-- C3 amended: input resolution precedence.  A job with a `previous` job
always resolves to the previous job's output location, even when path
parameters are present; otherwise, if a `path`-typed (`store`-action)
parameter exists, the input is the first comma-separated value of the
first such parameter in declaration order (assuming path-parameter flags
are not duplicated) with all leading and trailing slash characters
stripped; otherwise the synthetic empty-input sentinel location is
used. -/
theorem c3_input_resolution_amended (previous_output : Option String)
    (params : List ParamInst) (home : String) :
    (∀ out, previous_output = some out →
      run_plugin_instance_app_inputdir previous_output params home = out) ∧
    (previous_output = none →
      ((∀ q ∈ params, ¬(q.param.action = "store" ∧ q.param.type = "path")) →
        run_plugin_instance_app_inputdir previous_output params home =
          manage_fsplugin_instance_app_empty_inputdir home) ∧
      (∀ pre p post s, params = pre ++ p :: post →
        p.param.action = "store" → p.param.type = "path" →
        p.value = PyVal.str s →
        (∀ q ∈ pre, ¬(q.param.action = "store" ∧ q.param.type = "path")) →
        (∀ q ∈ post, q.param.action = "store" → q.param.type = "path" →
          q.param.flag ≠ p.param.flag) →
        run_plugin_instance_app_inputdir previous_output params home =
          pyStrip ((pySplit s ',').headI) '/')) := by
  constructor
  · intro out hout
    subst hout
    rfl
  · intro hnone
    subst hnone
    constructor
    · intro hnopath
      have hdict : (get_plugin_instance_app_cmd_args params).2.2 = [] := by
        rw [get_plugin_instance_app_cmd_args, foldl_cmd_args_path]
        exact foldl_path_dict_skip params [] hnopath
      simp [run_plugin_instance_app_inputdir, hdict]
    · intro pre p post s hparams hact htype hval hpre hpost
      have hdict : ∃ d',
          (get_plugin_instance_app_cmd_args params).2.2 =
            (p.param.flag, PyVal.str s) :: d' := by
        rw [get_plugin_instance_app_cmd_args, foldl_cmd_args_path, hparams,
          List.foldl_append, List.foldl_cons,
          foldl_path_dict_skip pre _ hpre]
        have hstep : path_dict_step [] p = [(p.param.flag, PyVal.str s)] := by
          rw [path_dict_step, if_pos ⟨hact, htype⟩, hval]
          rfl
        rw [hstep]
        exact foldl_path_dict_head post p.param.flag (PyVal.str s) [] hpost
      obtain ⟨d', hd'⟩ := hdict
      simp [run_plugin_instance_app_inputdir, hd', asStr]

/-- C3 witness: the three branches of the amended input-resolution rule at
concrete inputs. -/
theorem c3_input_resolution_amended_witness :
    run_plugin_instance_app_inputdir (some "prev/out")
      [⟨⟨"-d", "path", "store"⟩, PyVal.str "/x/y,z"⟩] "/h" = "prev/out" ∧
    run_plugin_instance_app_inputdir none
      [⟨⟨"-d", "path", "store"⟩, PyVal.str "/x/y,z"⟩] "/h" = "x/y" ∧
    run_plugin_instance_app_inputdir none [] "/h" =
      manage_fsplugin_instance_app_empty_inputdir "/h" := by
  refine ⟨?_, ?_, ?_⟩
  · exact (c3_input_resolution_amended (some "prev/out")
      [⟨⟨"-d", "path", "store"⟩, PyVal.str "/x/y,z"⟩] "/h").1 "prev/out" rfl
  · exact (((c3_input_resolution_amended none
      [⟨⟨"-d", "path", "store"⟩, PyVal.str "/x/y,z"⟩] "/h").2 rfl).2
      [] ⟨⟨"-d", "path", "store"⟩, PyVal.str "/x/y,z"⟩ [] "/x/y,z" rfl rfl rfl
      rfl (by simp) (by simp)).trans (by decide)
  · exact ((c3_input_resolution_amended none [] "/h").2 rfl).1 (by simp)

/-- A storage environment where listing the prefix `in` finds one object
`in/a` and every object download fails with a `ClientException`. -/
def envDownloadFails : SwiftEnv :=
  ⟨fun _ => SwiftRes.ok ["in/a"], fun _ => SwiftRes.clientErr⟩

/-- A storage environment where the prefix `in` lists `in/a` and `in/b`,
downloading `in/a` yields bytes `[7]`, and downloading `in/b` fails. -/
def envSecondDownloadFails : SwiftEnv :=
  ⟨fun _ => SwiftRes.ok ["in/a", "in/b"],
    fun p => if p = "in/b" then SwiftRes.clientErr else SwiftRes.ok [7]⟩

/-- C5: the failed-download branch of `create_zip_file` does not skip the
failing object, because the `writestr` call sits outside the
`try`/`except`.  When the very first download fails, the Python local
`contents` is still unbound and the pack aborts with a `NameError`
instead of completing with a partial archive; when a later download
fails, the previous object's bytes are silently written under the failed
object's entry name instead of the entry being skipped. -/
theorem c5_pack_download_failure_not_skipped :
    create_zip_file envDownloadFails ["in"] =
      Except.error "NameError: contents" ∧
    create_zip_file envSecondDownloadFails ["in"] =
      Except.ok [("a", [7]), ("b", [7])] :=
  ⟨rfl, rfl⟩

/-- C7 counterexample: a response whose `d_ret` has no `l_logs` key makes
`get_job_status_summary` raise an uncaught `KeyError` (the assignment
copying `l_logs` sits outside the `try` block), so a missing log list is
fatal, contrary to the claim. -/
theorem c7_log_truncation_cex :
    get_job_status_summary
      (some ⟨⟨true, ⟨some ["running"], none⟩⟩⟩) =
      Except.error "KeyError: l_logs" :=
  rfl

/-- C7 amended: when the status summary is rebuilt from a remote response
carrying a log list, a first entry longer than 3000 characters is
replaced by exactly its final 3000 characters (a 3000-character suffix),
an empty log list or a first entry of at most 3000 characters leaves the
list unchanged, and an empty log list is never fatal; a response missing
the log list key, however, raises an uncaught `KeyError`. -/
theorem c7_log_truncation_amended (resp : DResponse) (lstat : List String)
    (h1 : resp.compute.d_ret.l_status = some lstat) :
    (resp.compute.d_ret.l_logs = none →
      get_job_status_summary (some resp) = Except.error "KeyError: l_logs") ∧
    (∀ llogs, resp.compute.d_ret.l_logs = some llogs →
      get_job_status_summary (some resp) =
        Except.ok ⟨true, false, true, resp.compute.status, lstat,
          truncateLogsPy llogs⟩ ∧
      (llogs = [] → truncateLogsPy llogs = []) ∧
      (∀ l0 rest, llogs = l0 :: rest →
        (l0.length ≤ 3000 → truncateLogsPy llogs = l0 :: rest) ∧
        (3000 < l0.length →
          truncateLogsPy llogs = pyLastChars l0 3000 :: rest ∧
          (pyLastChars l0 3000).length = 3000 ∧
          (pyLastChars l0 3000).data <:+ l0.data))) := by
  constructor
  · intro h2
    simp [get_job_status_summary, h1, h2]
  · intro llogs h2
    refine ⟨by simp [get_job_status_summary, h1, h2], ?_, ?_⟩
    · intro h3; subst h3; rfl
    · intro l0 rest h3
      subst h3
      constructor
      · intro hle
        simp [truncateLogsPy, Nat.not_lt_of_le hle]
      · intro hgt
        refine ⟨by simp [truncateLogsPy, hgt], ?_, ?_⟩
        · show (l0.data.drop (l0.data.length - 3000)).length = 3000
          rw [List.length_drop]
          have hlen : l0.length = l0.data.length := rfl
          omega
        · have hdata : (pyLastChars l0 3000).data =
              l0.data.drop (l0.data.length - 3000) := by
            simp only [pyLastChars, String.data]
          rw [hdata]
          exact List.drop_suffix _ _

/-- C7 witness: a log list whose first entry is short is left unchanged
and the summary rebuild succeeds. -/
theorem c7_log_truncation_amended_witness :
    get_job_status_summary
      (some ⟨⟨true, ⟨some ["running"], some ["ab", "cd"]⟩⟩⟩) =
      Except.ok ⟨true, false, true, true, ["running"], ["ab", "cd"]⟩ :=
  ((c7_log_truncation_amended ⟨⟨true, ⟨some ["running"], some ["ab", "cd"]⟩⟩⟩
    ["running"] rfl).2 ["ab", "cd"] rfl).1

lemma register_count_of_mem (jid : Nat) (p : String) (fns : List String) :
    ∀ table : List (Nat × String), (jid, p) ∈ table →
      ((register_output_files jid table fns).1).count (jid, p) =
        table.count (jid, p) := by
  induction fns with
  | nil => intro table _; rfl
  | cons f rest ih =>
    intro table hmem
    show ((register_output_files jid
      (if (jid, f) ∈ table then table else table ++ [(jid, f)]) rest).1).count
        (jid, p) = table.count (jid, p)
    by_cases hf : (jid, f) ∈ table
    · rw [if_pos hf]
      exact ih table hmem
    · rw [if_neg hf]
      have hne : (jid, f) ≠ (jid, p) := by
        intro he
        exact hf (he ▸ hmem)
      rw [ih (table ++ [(jid, f)]) (List.mem_append_left _ hmem)]
      simp [List.count_append, List.count_cons, hne]

lemma register_fst_skips_dup (jid : Nat) (p : String) (rest : List String)
    (table : List (Nat × String)) (hmem : (jid, p) ∈ table) :
    (register_output_files jid table (p :: rest)).1 =
      (register_output_files jid table rest).1 := by
  show (register_output_files jid
    (if (jid, p) ∈ table then table else table ++ [(jid, p)]) rest).1 =
      (register_output_files jid table rest).1
  rw [if_pos hmem]

/-- C8: registering the same output-storage path twice for the same job
results in exactly one `PluginInstanceFile` record: the duplicate
attempt's uniqueness violation is swallowed, leaving the table exactly as
if the path had been registered once, while the loop still visits the
duplicate (its `registerFile` event is emitted) and continues with the
remaining paths. -/
theorem c8_register_idempotent (jid : Nat) (table : List (Nat × String))
    (p : String) (rest : List String) (h : (jid, p) ∉ table) :
    (register_output_files jid table (p :: p :: rest)).1 =
      (register_output_files jid table (p :: rest)).1 ∧
    ((register_output_files jid table (p :: p :: rest)).1).count (jid, p) = 1 ∧
    (register_output_files jid table (p :: p :: rest)).2 =
      Ev.registerFile p :: (register_output_files jid table (p :: rest)).2 := by
  have hunfold : ∀ (t : List (Nat × String)) (f : String) (fns : List String),
      register_output_files jid t (f :: fns) =
        ((register_output_files jid
            (if (jid, f) ∈ t then t else t ++ [(jid, f)]) fns).1,
          Ev.registerFile f ::
            (register_output_files jid
              (if (jid, f) ∈ t then t else t ++ [(jid, f)]) fns).2) :=
    fun _ _ _ => rfl
  have hT2 : (if (jid, p) ∈ table then table else table ++ [(jid, p)]) =
      table ++ [(jid, p)] := if_neg h
  have hmem : (jid, p) ∈ table ++ [(jid, p)] :=
    List.mem_append_right _ (List.mem_singleton_self _)
  rw [hunfold table p (p :: rest), hT2, hunfold table p rest, hT2,
    hunfold (table ++ [(jid, p)]) p rest, if_pos hmem]
  refine ⟨rfl, ?_, rfl⟩
  rw [register_count_of_mem jid p rest (table ++ [(jid, p)]) hmem]
  have h0 : table.count (jid, p) = 0 := List.count_eq_zero.mpr h
  simp [List.count_append, List.count_cons, h0]

/-- C8 witness: registering the list `p, p, q` into an empty table yields
one record for `p`, the same table as registering `p, q`, and the
duplicate still produces its loop iteration. -/
theorem c8_register_idempotent_witness :
    (register_output_files 5 [] ["p", "p", "q"]).1 =
      (register_output_files 5 [] ["p", "q"]).1 ∧
    ((register_output_files 5 [] ["p", "p", "q"]).1).count (5, "p") = 1 ∧
    (register_output_files 5 [] ["p", "p", "q"]).2 =
      Ev.registerFile "p" :: (register_output_files 5 [] ["p", "q"]).2 :=
  c8_register_idempotent 5 [] "p" ["q"] (List.not_mem_nil _)

/-- A sample job instance in status `started`, with no lock row and no
registered files. -/
def wStarted : World :=
  ⟨⟨5, "started", ⟨true, false, true, false, [], []⟩, none, none, "out/5"⟩,
    [], []⟩

/-- A sample job instance already in the terminal status
`finishedSuccessfully`. -/
def wFinished : World :=
  ⟨⟨5, "finishedSuccessfully", ⟨true, true, true, true, [], []⟩, none,
    some 3, "out/5"⟩, [], []⟩

/-- C4: when the job's persisted status is `started` and the poll's
remote status request fails with a transport error or a non-200 HTTP
status, the whole world — in particular the job's `status`, `summary`,
`raw` and `end_date` fields — is left unchanged and the operation returns
the current status `started`; the only event is the attempted remote
GET. -/
theorem c4_poll_remote_failure_unchanged (env : PollEnv) (now : Nat)
    (w : World) (hs : w.inst.status = "started")
    (hf : env.statusResp = HttpResult.transportError ∨
      ∃ c d, env.statusResp = HttpResult.resp c d ∧ c ≠ 200) :
    check_plugin_instance_app_exec_status env now w =
      Except.ok (w, "started", [Ev.remoteStatusGet]) := by
  rcases hf with hf | ⟨c, d, hf, hc⟩
  · rw [check_plugin_instance_app_exec_status, if_pos hs, hf, hs]
  · rw [check_plugin_instance_app_exec_status, if_pos hs, hf]
    simp only [if_pos hc, hs]

/-- C4 witness: a transport failure while polling a started job changes
nothing and returns `started`. -/
theorem c4_poll_remote_failure_unchanged_witness :
    check_plugin_instance_app_exec_status
      ⟨HttpResult.transportError, HttpResult.transportError⟩ 7 wStarted =
      Except.ok (wStarted, "started", [Ev.remoteStatusGet]) :=
  c4_poll_remote_failure_unchanged
    ⟨HttpResult.transportError, HttpResult.transportError⟩ 7 wStarted rfl
    (Or.inl rfl)

/-- C10: when the job's persisted status is anything other than
`started`, the poll operation performs no remote request (the event trace
is empty), changes no persisted field (the world is returned unchanged)
and returns the job's current status. -/
theorem c10_poll_non_started_frame (env : PollEnv) (now : Nat) (w : World)
    (h : w.inst.status ≠ "started") :
    check_plugin_instance_app_exec_status env now w =
      Except.ok (w, w.inst.status, []) := by
  rw [check_plugin_instance_app_exec_status, if_neg h]

/-- C10 witness: polling a job already in `finishedSuccessfully` does
nothing and returns that status. -/
theorem c10_poll_non_started_frame_witness :
    check_plugin_instance_app_exec_status
      ⟨HttpResult.transportError, HttpResult.transportError⟩ 7 wFinished =
      Except.ok (wFinished, "finishedSuccessfully", []) :=
  c10_poll_non_started_frame
    ⟨HttpResult.transportError, HttpResult.transportError⟩ 7 wFinished
    (by decide)

/-- A successful archive fetch carrying one entry `a.txt`. -/
def goodFetch : HttpResult ZipData :=
  HttpResult.resp 200 (ZipData.entries [("a.txt", [1])])

/-- C2 counterexample: in a finalize-success run that acquires the lock
and succeeds, both a `fetchArchive` and a `persistStatus
"registeringFiles"` event occur, yet no `registeringFiles` persist
precedes the first archive fetch — the code fetches the archive first and
only then persists `registeringFiles`, contradicting the claimed
order. -/
theorem c2_registering_before_fetch_cex :
    Ev.fetchArchive ∈ (handle_finished_successfully goodFetch 7 wStarted).2 ∧
    Ev.persistStatus "registeringFiles" ∈
      (handle_finished_successfully goodFetch 7 wStarted).2 ∧
    registeringPersistedBeforeFetch
      (handle_finished_successfully goodFetch 7 wStarted).2 = false := by
  decide

/-- C2 amended: after the finalization lock is acquired, the result
archive is fetched from the remote compute service first; on
transport/HTTP failure of that fetch the status transitions to
`cancelled` (persisted together with the end date) and the procedure
stops, with no `registeringFiles` write and no unpack; on a successful
(HTTP 200) fetch the status `registeringFiles` is set and persisted
before the archive is unpacked. -/
theorem c2_fetch_then_registering_amended (fetchResp : HttpResult ZipData)
    (now : Nat) (w : World) (h : w.inst.id ∉ w.lockTable) :
    (handle_finished_successfully fetchResp now w).2.head? =
      some Ev.fetchArchive ∧
    (fetchResp = HttpResult.transportError →
      (handle_finished_successfully fetchResp now w).1.inst.status =
        "cancelled" ∧
      (handle_finished_successfully fetchResp now w).1.inst.end_date =
        some now ∧
      (handle_finished_successfully fetchResp now w).2 =
        [Ev.fetchArchive, Ev.persistStatus "cancelled"]) ∧
    (∀ c z, fetchResp = HttpResult.resp c z → c ≠ 200 →
      (handle_finished_successfully fetchResp now w).1.inst.status =
        "cancelled" ∧
      (handle_finished_successfully fetchResp now w).1.inst.end_date =
        some now ∧
      (handle_finished_successfully fetchResp now w).2 =
        [Ev.fetchArchive, Ev.persistStatus "cancelled"]) ∧
    (∀ z, fetchResp = HttpResult.resp 200 z →
      (handle_finished_successfully fetchResp now w).2.take 3 =
        [Ev.fetchArchive, Ev.persistStatus "registeringFiles",
          Ev.unpackArchive]) := by
  refine ⟨?_, ?_, ?_, ?_⟩
  · cases fetchResp with
    | transportError =>
      simp [handle_finished_successfully, save_plugin_instance_final_status, h]
    | resp c z =>
      by_cases hc : c = 200
      · subst hc
        cases z <;>
          simp [handle_finished_successfully,
            save_plugin_instance_final_status, unpack_zip_file, h]
      · simp [handle_finished_successfully,
          save_plugin_instance_final_status, h, hc]
  · intro hT
    subst hT
    simp [handle_finished_successfully, save_plugin_instance_final_status, h]
  · intro c z hR hc
    subst hR
    simp [handle_finished_successfully, save_plugin_instance_final_status,
      h, hc]
  · intro z hR
    subst hR
    cases z <;>
      simp [handle_finished_successfully, save_plugin_instance_final_status,
        unpack_zip_file, h]

/-- C2 witness: on a transport failure the job is cancelled with its end
date persisted and nothing else happens; on a successful fetch the
`registeringFiles` persist comes after the fetch and before the
unpack. -/
theorem c2_fetch_then_registering_amended_witness :
    (handle_finished_successfully HttpResult.transportError 7 wStarted).2 =
      [Ev.fetchArchive, Ev.persistStatus "cancelled"] ∧
    (handle_finished_successfully goodFetch 7 wStarted).2.take 3 =
      [Ev.fetchArchive, Ev.persistStatus "registeringFiles",
        Ev.unpackArchive] :=
  ⟨((c2_fetch_then_registering_amended HttpResult.transportError 7 wStarted
      (by decide)).2.1 rfl).2.2,
    (c2_fetch_then_registering_amended goodFetch 7 wStarted
      (by decide)).2.2.2 (ZipData.entries [("a.txt", [1])]) rfl⟩

lemma handle_locked_noop (e : HttpResult ZipData) (now : Nat) (w : World)
    (h : w.inst.id ∈ w.lockTable) :
    handle_finished_successfully e now w = (w, []) := by
  rw [handle_finished_successfully, if_pos h]

lemma handle_owner_lock (e : HttpResult ZipData) (now : Nat) (w : World)
    (h : w.inst.id ∉ w.lockTable) :
    (handle_finished_successfully e now w).1.lockTable =
      w.lockTable ++ [w.inst.id] ∧
    (handle_finished_successfully e now w).1.inst.id = w.inst.id := by
  cases e with
  | transportError =>
    simp [handle_finished_successfully, save_plugin_instance_final_status, h]
  | resp c z =>
    by_cases hc : c = 200
    · subst hc
      cases z <;>
        simp [handle_finished_successfully,
          save_plugin_instance_final_status, unpack_zip_file, h]
    · simp [handle_finished_successfully, save_plugin_instance_final_status,
        h, hc]

lemma register_output_files_events (jid : Nat) (fns : List String) :
    ∀ table : List (Nat × String),
      (register_output_files jid table fns).2 = fns.map Ev.registerFile := by
  induction fns with
  | nil => intro table; rfl
  | cons f rest ih =>
    intro table
    show Ev.registerFile f ::
        (register_output_files jid
          (if (jid, f) ∈ table then table else table ++ [(jid, f)]) rest).2 =
      Ev.registerFile f :: rest.map Ev.registerFile
    rw [ih]

lemma handle_good_zip (l : List (String × List Nat)) (now : Nat) (w : World)
    (h : w.inst.id ∉ w.lockTable) :
    (handle_finished_successfully
        (HttpResult.resp 200 (ZipData.entries l)) now w).2 =
      [Ev.fetchArchive, Ev.persistStatus "registeringFiles",
        Ev.unpackArchive] ++
        l.map (fun ze =>
          Ev.registerFile ((w.inst.output_path ++ "/") ++ pyLStrip ze.1 '/')) ++
        [Ev.persistStatus "finishedSuccessfully"] ∧
    (handle_finished_successfully
        (HttpResult.resp 200 (ZipData.entries l)) now w).1.inst.status =
      "finishedSuccessfully" := by
  simp [handle_finished_successfully, save_plugin_instance_final_status,
    unpack_zip_file, register_output_files_events, h, List.map_map,
    Function.comp]

lemma runFinalizeAttempts_locked (now : Nat)
    (envs : List (HttpResult ZipData)) :
    ∀ w : World, w.inst.id ∈ w.lockTable →
      runFinalizeAttempts now envs w = (w, envs.map (fun _ => [])) := by
  induction envs with
  | nil => intro w _; rfl
  | cons e rest ih =>
    intro w h
    show ((runFinalizeAttempts now rest
        (handle_finished_successfully e now w).1).1,
      (handle_finished_successfully e now w).2 ::
        (runFinalizeAttempts now rest
          (handle_finished_successfully e now w).1).2) = _
    rw [handle_locked_noop e now w h]
    rw [ih w h]
    rfl

/-- C1: under N sequentially interleaved finalize-success attempts for
the same job with the same successful remote archive (the attempts'
shared-state interactions serialize at the atomic lock-row insert), the
single caller whose lock insert succeeds performs the archive download,
the file registration for every archive entry, and the final persist of
`finishedSuccessfully`; every later caller hits the uniqueness conflict
and returns immediately, contributing no events and leaving the world
exactly as the winner left it; in general, any attempt that finds the
lock row present is a no-op. -/
theorem c1_finalize_at_most_once (e : HttpResult ZipData)
    (envs : List (HttpResult ZipData)) (now : Nat) (w : World)
    (hlock : w.inst.id ∉ w.lockTable)
    (hgood : ∃ l, e = HttpResult.resp 200 (ZipData.entries l)) :
    runFinalizeAttempts now (e :: envs) w =
      ((handle_finished_successfully e now w).1,
        (handle_finished_successfully e now w).2 ::
          envs.map (fun _ => [])) ∧
    (handle_finished_successfully e now w).1.inst.status =
      "finishedSuccessfully" ∧
    Ev.fetchArchive ∈ (handle_finished_successfully e now w).2 ∧
    Ev.persistStatus "finishedSuccessfully" ∈
      (handle_finished_successfully e now w).2 ∧
    (∀ l, e = HttpResult.resp 200 (ZipData.entries l) →
      ∀ ze ∈ l,
        Ev.registerFile ((w.inst.output_path ++ "/") ++ pyLStrip ze.1 '/') ∈
          (handle_finished_successfully e now w).2) ∧
    (∀ e2 w2, w2.inst.id ∈ w2.lockTable →
      handle_finished_successfully e2 now w2 = (w2, [])) := by
  obtain ⟨l, rfl⟩ := hgood
  have howner := handle_owner_lock
    (HttpResult.resp 200 (ZipData.entries l)) now w hlock
  have hgood2 := handle_good_zip l now w hlock
  have hlockedAfter :
      (handle_finished_successfully
        (HttpResult.resp 200 (ZipData.entries l)) now w).1.inst.id ∈
      (handle_finished_successfully
        (HttpResult.resp 200 (ZipData.entries l)) now w).1.lockTable := by
    rw [howner.1, howner.2]
    exact List.mem_append_right _ (List.mem_singleton_self _)
  refine ⟨?_, hgood2.2, ?_, ?_, ?_, fun e2 w2 h2 => handle_locked_noop e2 now w2 h2⟩
  · show ((runFinalizeAttempts now envs
        (handle_finished_successfully
          (HttpResult.resp 200 (ZipData.entries l)) now w).1).1,
      (handle_finished_successfully
        (HttpResult.resp 200 (ZipData.entries l)) now w).2 ::
        (runFinalizeAttempts now envs
          (handle_finished_successfully
            (HttpResult.resp 200 (ZipData.entries l)) now w).1).2) = _
    rw [runFinalizeAttempts_locked now envs _ hlockedAfter]
  · rw [hgood2.1]; simp
  · rw [hgood2.1]; simp
  · intro l2 hl2 ze hze
    have hll : l2 = l := by
      injection hl2 with h1 h2
      cases h2
      rfl
    subst hll
    rw [hgood2.1]
    refine List.mem_append_left _ (List.mem_append_right _ ?_)
    exact List.mem_map_of_mem _ hze

/-- C1 witness: three concurrent finalize attempts with the same
successful archive — the first performs the work, the other two return
with no events. -/
theorem c1_finalize_at_most_once_witness :
    (runFinalizeAttempts 7 [goodFetch, goodFetch, goodFetch] wStarted).2 =
      [(handle_finished_successfully goodFetch 7 wStarted).2, [], []] ∧
    Ev.persistStatus "finishedSuccessfully" ∈
      (handle_finished_successfully goodFetch 7 wStarted).2 := by
  have h := c1_finalize_at_most_once goodFetch [goodFetch, goodFetch] 7
    wStarted (by decide) ⟨[("a.txt", [1])], rfl⟩
  exact ⟨by rw [h.1]; rfl, h.2.2.2.1⟩

end ChRISManager
